import Mathlib

/-!
# Verification of the backupbrace incremental backup engine

Shallow embedding of the core of the `backupbrace` program
(`closingbrace/backup.py`, with identical refactored copies in
`closingbrace/backupset.py`, `closingbrace/backupmanager.py`,
`closingbrace/functions.py` and `closingbrace/jsoncoders.py`):
the backup-set state enumeration, the recursive tree cloner with
aggregated partial failures, the persisted backup state file, the
`Backup` aggregate and the `BackupManager` cross-generation lookup.

External library calls (`os`, `json`, `dateutil`) are modelled by
explicit Lean counterparts: the filesystem by finite association
structures, the JSON layer by a structured value that the `json`
module round-trips verbatim, and `dateutil.parser.parse` by an
ISO-8601 parser on the strings `datetime.isoformat` produces.
-/

namespace Backupbrace

/-- The `BackupSet.States` enumeration
(`backup.py` lines 139-206 / `backupset.py` lines 29-96):
CONFIGURED = 0, CLONING = 1, CLONED = 2, SYNCHRONIZING = 3, FINISHED = 4. -/
inductive States where
  | CONFIGURED
  | CLONING
  | CLONED
  | SYNCHRONIZING
  | FINISHED
deriving DecidableEq, Repr, Fintype

namespace States

/-- The numeric value assigned to each enumeration member in the source. -/
def value : States → Nat
  | .CONFIGURED => 0
  | .CLONING => 1
  | .CLONED => 2
  | .SYNCHRONIZING => 3
  | .FINISHED => 4

/-- `States.__lt__`: `self.value < other.value`. -/
def lt (a b : States) : Bool := a.value < b.value

/-- `States.__le__`: `self.value <= other.value`. -/
def le (a b : States) : Bool := a.value ≤ b.value

/-- `States.__gt__`: `self.value > other.value`. -/
def gt (a b : States) : Bool := a.value > b.value

/-- `States.__ge__`: `self.value >= other.value`. -/
def ge (a b : States) : Bool := a.value ≥ b.value

/-- The `name` attribute of each enumeration member (Python `Enum.name`). -/
def name : States → String
  | .CONFIGURED => "CONFIGURED"
  | .CLONING => "CLONING"
  | .CLONED => "CLONED"
  | .SYNCHRONIZING => "SYNCHRONIZING"
  | .FINISHED => "FINISHED"

/-- `States.from_string` (`backup.py` lines 174-200): compares the
argument against each member's name in order and raises `ValueError`
("Illegal name ...") when none matches.  The raised `ValueError` is
modelled as the `Except.error` branch. -/
def from_string (s : String) : Except String States :=
  if s = States.CONFIGURED.name then .ok .CONFIGURED
  else if s = States.CLONING.name then .ok .CLONING
  else if s = States.CLONED.name then .ok .CLONED
  else if s = States.SYNCHRONIZING.name then .ok .SYNCHRONIZING
  else if s = States.FINISHED.name then .ok .FINISHED
  else .error ("Illegal name (" ++ s ++ ") for enumeration 'States'")

end States

/-! ## Timestamps

`Backup.timestamp` is a Python naive `datetime` truncated to the second
(`datetime.now().replace(microsecond=0)`).  `TimestampEncoder` persists
it as `timestamp.isoformat()`; `decode_state_json` reads it back with
`dateutil.parser.parse`.  A `datetime` with `microsecond == 0` formats
as the 19-character string `YYYY-MM-DDTHH:MM:SS`. -/

/-- A naive Python `datetime` at second precision (microsecond 0). -/
structure DateTime where
  year : Nat
  month : Nat
  day : Nat
  hour : Nat
  minute : Nat
  second : Nat
deriving DecidableEq, Repr

/-- Field ranges enforced by the Python `datetime` constructor
(`MINYEAR = 1`, `MAXYEAR = 9999`; days simplified to at most 31). -/
def DateTime.Valid (t : DateTime) : Prop :=
  1 ≤ t.year ∧ t.year ≤ 9999 ∧ 1 ≤ t.month ∧ t.month ≤ 12 ∧
    1 ≤ t.day ∧ t.day ≤ 31 ∧ t.hour ≤ 23 ∧ t.minute ≤ 59 ∧ t.second ≤ 59

instance (t : DateTime) : Decidable t.Valid := by
  unfold DateTime.Valid; infer_instance

/-- `datetime.min`: year 1, month 1, day 1, midnight. -/
def DateTime.min : DateTime := ⟨1, 1, 1, 0, 0, 0⟩

/-- Python `datetime` comparison: lexicographic on the fields. -/
def DateTime.ltb (a b : DateTime) : Bool :=
  if a.year ≠ b.year then a.year < b.year
  else if a.month ≠ b.month then a.month < b.month
  else if a.day ≠ b.day then a.day < b.day
  else if a.hour ≠ b.hour then a.hour < b.hour
  else if a.minute ≠ b.minute then a.minute < b.minute
  else a.second < b.second

/-- The decimal digit character for `d` (meaningful for `d < 10`). -/
def digitChar (d : Nat) : Char := Char.ofNat (48 + d)

/-- Reads a decimal digit character back to its value. -/
def charToDigit (c : Char) : Option Nat :=
  if 48 ≤ c.toNat ∧ c.toNat ≤ 57 then some (c.toNat - 48) else none

/-- Zero-padded two-digit rendering (`%02d` for values below 100). -/
def pad2 (n : Nat) : List Char := [digitChar (n / 10), digitChar (n % 10)]

/-- Zero-padded four-digit rendering (`%04d` for values below 10000). -/
def pad4 (n : Nat) : List Char :=
  [digitChar (n / 1000), digitChar (n / 100 % 10),
    digitChar (n / 10 % 10), digitChar (n % 10)]

/-- `datetime.isoformat()` for a microsecond-0 datetime:
`YYYY-MM-DDTHH:MM:SS`, as a character list. -/
def isoformatChars (t : DateTime) : List Char :=
  pad4 t.year ++ '-' :: pad2 t.month ++ '-' :: pad2 t.day ++
    'T' :: pad2 t.hour ++ ':' :: pad2 t.minute ++ ':' :: pad2 t.second

/-- `datetime.isoformat()` as a `String`. -/
def isoformat (t : DateTime) : String := ⟨isoformatChars t⟩

/-- `dateutil.parser.parse` on the image of `isoformat`: accepts exactly
the 19-character `YYYY-MM-DDTHH:MM:SS` shape and recovers the fields;
anything else is a parse failure (`ValueError`), modelled as `none`. -/
def parseIsoChars : List Char → Option DateTime
  | [y1, y2, y3, y4, '-', m1, m2, '-', d1, d2,
      'T', h1, h2, ':', n1, n2, ':', s1, s2] =>
    match charToDigit y1, charToDigit y2, charToDigit y3, charToDigit y4,
        charToDigit m1, charToDigit m2, charToDigit d1, charToDigit d2,
        charToDigit h1, charToDigit h2, charToDigit n1, charToDigit n2,
        charToDigit s1, charToDigit s2 with
    | some a, some b, some c, some d, some e, some f, some g, some h,
        some i, some j, some k, some l, some m, some n =>
      some ⟨1000 * a + 100 * b + 10 * c + d, 10 * e + f, 10 * g + h,
        10 * i + j, 10 * k + l, 10 * m + n⟩
    | _, _, _, _, _, _, _, _, _, _, _, _, _, _ => none
  | _ => none

/-- `dateutil.parser.parse` as a `String` function. -/
def parseIso (s : String) : Option DateTime := parseIsoChars s.data

/-- The JSON object stored in a `backup.state` file: an ISO timestamp
string and a name-to-state-name mapping (in dict insertion order). -/
structure StateJson where
  timestamp : String
  sets : List (String × String)
deriving DecidableEq, Repr

/-- Python dict insertion: overwrite in place when the key is present,
append otherwise. -/
def dictInsert (l : List (String × String)) (k v : String) :
    List (String × String) :=
  if l.any (fun p => p.1 = k) then
    l.map (fun p => if p.1 = k then (k, v) else p)
  else l ++ [(k, v)]

/-- The dict comprehension `{set_.name: set_.state.name for set_ in
self._sets}` of `Backup._save_state`. -/
def setsDict (sets : List (String × States)) : List (String × String) :=
  sets.foldl (fun acc p => dictInsert acc p.1 p.2.name) []

/-- `Backup._save_state` (`backup.py` lines 502-513): the JSON object
written to the state file, computed from the in-memory timestamp and
set list. -/
def save_state (timestamp : DateTime) (sets : List (String × States)) :
    StateJson :=
  ⟨isoformat timestamp, setsDict sets⟩

/-- A value of the inner `sets` dict after the `json.load` object hook
ran on it.  Originally every value is a state-name string; the hook
keys only on dict *keys*, so it may have replaced the value at a key
named "timestamp" by a parsed datetime, and the value at a key named
"sets" by the empty dict (the comprehension over an empty string). -/
inductive HookedVal where
  | str (s : String)
  | dt (t : DateTime)
  | emptyDict
deriving DecidableEq, Repr

/-- Python dict lookup `dct[k]` guarded by `k in dct`. -/
def lookupKey (l : List (String × String)) (k : String) : Option String :=
  (l.find? (fun p => decide (p.1 = k))).map Prod.snd

/-- The object hook `decode_state_json` as `json.load` applies it to
the *inner* `sets` dict (set names mapped to state-name strings):
`json.load(fp, object_hook=...)` runs the hook on every decoded JSON
object, innermost first.  The hook keys on dict keys, so a set named
"timestamp" has its value fed to `dateutil.parser.parse` — a
`ValueError` when, as for every state name, it is no date, a datetime
replacing the string when it is — and a set named "sets" has its
string value iterated as a dict: `TypeError` on indexing a non-empty
string, the empty dict for the empty string. -/
def hook_inner (sets : List (String × String)) :
    Except String (List (String × HookedVal)) :=
  let afterTimestamp :
      Except String (List (String × HookedVal)) :=
    match lookupKey sets "timestamp" with
    | none => .ok (sets.map (fun p => (p.1, HookedVal.str p.2)))
    | some v =>
      match parseIso v with
      | none => .error ("ValueError: Unknown string format: " ++ v)
      | some d => .ok (sets.map (fun p =>
          (p.1, if p.1 = "timestamp" then HookedVal.dt d
            else HookedVal.str p.2)))
  match afterTimestamp with
  | .error e => .error e
  | .ok sets1 =>
    match lookupKey sets "sets" with
    | none => .ok sets1
    | some v =>
      if v = "" then
        .ok (sets1.map (fun p =>
          (p.1, if p.1 = "sets" then HookedVal.emptyDict else p.2)))
      else .error "TypeError: string indices must be integers"

/-- `States.from_string` as the outer hook's comprehension applies it
to an already-hooked inner value: a non-string value compares unequal
to every member name, so the final `else` raises the Illegal-name
`ValueError`. -/
def from_string_hooked : HookedVal → Except String States
  | .str s => States.from_string s
  | .dt _ => .error "ValueError: Illegal name for enumeration 'States'"
  | .emptyDict => .error "ValueError: Illegal name for enumeration 'States'"

/-- The `sets` part of the outer hook run (`backup.py` lines 52-55):
`{key: States.from_string(sets[key]) for key in sets}` over the
hook-processed inner dict; the first failing value raises. -/
def decodeSetsHooked :
    List (String × HookedVal) → Except String (List (String × States))
  | [] => .ok []
  | (k, v) :: rest =>
    match from_string_hooked v with
    | .error e => .error e
    | .ok s =>
      match decodeSetsHooked rest with
      | .error e => .error e
      | .ok r => .ok ((k, s) :: r)

/-- `decode_state_json` (`backup.py` lines 36-56) as `json.load`
applies it to a state file: the hook first runs on the inner `sets`
object, then on the outer object — parse the timestamp with
`dateutil.parser.parse` (a failure raises `ValueError`) and convert
each inner value with `States.from_string`. -/
def decode_state_json (j : StateJson) :
    Except String (DateTime × List (String × States)) :=
  match hook_inner j.sets with
  | .error e => .error e
  | .ok inner =>
    match parseIso j.timestamp with
    | none => .error "ValueError: unparsable timestamp"
    | some ts =>
      match decodeSetsHooked inner with
      | .error e => .error e
      | .ok s => .ok (ts, s)

/-- The in-memory `Backup` object: its directory, its timestamp and its
`_sets` list, each set reduced to the `(name, state)` data the claims
use.  (`_sets` holds `BackupSet` objects; `name` and `state` are the
fields read by `find_set_location`, `create` and `_save_state`.) -/
structure Backup where
  directory : String
  timestamp : DateTime
  sets : List (String × States)
deriving DecidableEq, Repr

/-- `Backup._save_state` on a `Backup` object. -/
def Backup.save_state (b : Backup) : StateJson :=
  Backupbrace.save_state b.timestamp b.sets

/-- `Backup._load_state` (`backup.py` lines 515-523) on the parsed
state-file object: rebuild `_sets` as read-only `BackupSet(name,
state=...)` in dict order and set the timestamp. -/
def load_state (directory : String) (j : StateJson) : Except String Backup := do
  let (ts, sets) ← decode_state_json j
  .ok ⟨directory, ts, sets⟩

/-- `os.path.join` for a relative second component. -/
def pathJoin (a b : String) : String := a ++ "/" ++ b

/-- `Backup.find_set_location` (`backup.py` lines 455-471): filter
`_sets` by name and state membership; a non-empty result yields
`os.path.join(self._backup_dir, set_name)`, otherwise `None`. -/
def Backup.find_set_location (b : Backup) (set_name : String)
    (states : List States) : Option String :=
  let set_list := b.sets.filter
    (fun p => decide (p.1 = set_name) && decide (p.2 ∈ states))
  if set_list.isEmpty then none else some (pathJoin b.directory set_name)

/-- The Python `<` on `datetime` as an explicit lexicographic
proposition (used to state the `ltb` lemmas). -/
def DateTime.Lt (a b : DateTime) : Prop :=
  a.year < b.year ∨ (a.year = b.year ∧ (a.month < b.month ∨
    (a.month = b.month ∧ (a.day < b.day ∨ (a.day = b.day ∧
      (a.hour < b.hour ∨ (a.hour = b.hour ∧ (a.minute < b.minute ∨
        (a.minute = b.minute ∧ a.second < b.second)))))))))

/-- The in-memory `BackupManager`: its base directory and the `_backups`
list in load/registration order. -/
structure BackupManager where
  directory : String
  backups : List Backup
deriving Repr

/-- The loop of `BackupManager.find_latest_set` (`backupmanager.py`
lines 79-88): running accumulators `latest_location` (initially `None`)
and `latest_timestamp` (initially `datetime.min`); a backup whose
`find_set_location` is non-`None` replaces them when its timestamp is
strictly greater than the running maximum. -/
def flsAux (set_name : String) (states : List States) :
    List Backup → Option String → DateTime → Option String
  | [], latest_location, _ => latest_location
  | backup :: rest, latest_location, latest_timestamp =>
    match backup.find_set_location set_name states with
    | some location =>
      if DateTime.ltb latest_timestamp backup.timestamp then
        flsAux set_name states rest (some location) backup.timestamp
      else
        flsAux set_name states rest latest_location latest_timestamp
    | none => flsAux set_name states rest latest_location latest_timestamp

/-- `BackupManager.find_latest_set` (`backupmanager.py` lines 68-88 /
`backup.py` lines 579-599). -/
def BackupManager.find_latest_set (m : BackupManager) (set_name : String)
    (states : List States) : Option String :=
  flsAux set_name states m.backups none DateTime.min

/-- The backup whose location the `find_latest_set` fold finally adopts
when starting from running maximum `ts` (or `none` when no backup beats
`ts`): the first qualifying backup strictly above `ts`, improved by the
winner of the remainder above that backup's timestamp. -/
def flsWinner (set_name : String) (states : List States) (ts : DateTime) :
    List Backup → Option Backup
  | [] => none
  | b :: rest =>
    if (b.find_set_location set_name states).isSome &&
        DateTime.ltb ts b.timestamp then
      match flsWinner set_name states b.timestamp rest with
      | some w => some w
      | none => some b
    else flsWinner set_name states ts rest

/-- An in-memory `Backup` together with the current content of its
on-disk state file. -/
structure World where
  backup : Backup
  file : StateJson
deriving DecidableEq, Repr

/-- `Backup.add_local_dir_set` (`backup.py` lines 420-433): append a
`LocalDirBackupSet(name, ..., state=CONFIGURED)` to `_sets`, then
`_save_state()`.  Source directory and skip entries do not affect the
persisted name-to-state data and are not modelled. -/
def add_local_dir_set (w : World) (name : String) : World :=
  let b : Backup :=
    { w.backup with sets := w.backup.sets ++ [(name, States.CONFIGURED)] }
  ⟨b, b.save_state⟩

/-- `Backup.add_remote_dir_set` (`backup.py` lines 435-453): append a
`RemoteDirBackupSet(name, ..., state=CONFIGURED)` to `_sets`, then
`_save_state()`.  Host, shell and skip entries do not affect the
persisted name-to-state data and are not modelled. -/
def add_remote_dir_set (w : World) (name : String) : World :=
  let b : Backup :=
    { w.backup with sets := w.backup.sets ++ [(name, States.CONFIGURED)] }
  ⟨b, b.save_state⟩

/-- Observations of one `Backup.create` run: `trace` records, for every
`_save_state()` call, the transition `(set name, new state)` that
preceded it and the world (in-memory state plus file content) right
after the persist; `queries` records the calls to the
`copy_source_finder`; `result` is the final set list or the error that
aborted the run. -/
structure CreateOutcome where
  trace : List (String × States × World)
  queries : List (String × List States)
  result : Except String (List (String × States))
deriving Repr

/-- The loop of `Backup.create` (`backup.py` lines 473-500).  `done`
holds the already-processed prefix of `_sets` (all `FINISHED`), the
argument list the remaining sets.  For each set, in order: call
`copy_source_finder(name, [CLONED, SYNCHRONIZING, FINISHED])`; when it
returns a source, transition to `CLONING`, persist, clone, transition
to `CLONED`, persist; then transition to `SYNCHRONIZING`, persist, run
`do_backup()`, transition to `FINISHED`, persist.  The outcomes of the
external side effects (`clone_tree`, `rsync`) are supplied by the
oracles `cloneOk` and `syncOk`; a failure raises out of the loop,
leaving the trace at the last completed persist. -/
def createAux (resolver : String → List States → Option String)
    (cloneOk syncOk : String → Bool) (dir : String) (ts : DateTime)
    (done : List (String × States)) :
    List (String × States) → CreateOutcome
  | [] => ⟨[], [], .ok done⟩
  | (name, _st) :: todo =>
    let world := fun (s : States) =>
      let b : Backup := ⟨dir, ts, done ++ (name, s) :: todo⟩
      (⟨b, b.save_state⟩ : World)
    let query : String × List States :=
      (name, [States.CLONED, States.SYNCHRONIZING, States.FINISHED])
    match resolver name
        [States.CLONED, States.SYNCHRONIZING, States.FINISHED] with
    | some _src =>
      if cloneOk name then
        if syncOk name then
          let rest := createAux resolver cloneOk syncOk dir ts
            (done ++ [(name, States.FINISHED)]) todo
          ⟨(name, States.CLONING, world States.CLONING) ::
            (name, States.CLONED, world States.CLONED) ::
            (name, States.SYNCHRONIZING, world States.SYNCHRONIZING) ::
            (name, States.FINISHED, world States.FINISHED) :: rest.trace,
            query :: rest.queries, rest.result⟩
        else
          ⟨[(name, States.CLONING, world States.CLONING),
            (name, States.CLONED, world States.CLONED),
            (name, States.SYNCHRONIZING, world States.SYNCHRONIZING)],
            [query], .error "BackupError: subprocess failed"⟩
      else
        ⟨[(name, States.CLONING, world States.CLONING)], [query],
          .error "BackupError: errors during cloning"⟩
    | none =>
      if syncOk name then
        let rest := createAux resolver cloneOk syncOk dir ts
          (done ++ [(name, States.FINISHED)]) todo
        ⟨(name, States.SYNCHRONIZING, world States.SYNCHRONIZING) ::
          (name, States.FINISHED, world States.FINISHED) :: rest.trace,
          query :: rest.queries, rest.result⟩
      else
        ⟨[(name, States.SYNCHRONIZING, world States.SYNCHRONIZING)],
          [query], .error "BackupError: subprocess failed"⟩

/-- `Backup.create` on a backup object. -/
def Backup.create (b : Backup) (resolver : String → List States → Option String)
    (cloneOk syncOk : String → Bool) : CreateOutcome :=
  createAux resolver cloneOk syncOk b.directory b.timestamp [] b.sets

/-- The per-set transition sequence `create` performs, as stated by the
spec: the clone phase exactly when the resolver finds a source. -/
def createSegment (resolver : String → List States → Option String)
    (p : String × States) : List (String × States) :=
  if (resolver p.1
      [States.CLONED, States.SYNCHRONIZING, States.FINISHED]).isSome then
    [(p.1, States.CLONING), (p.1, States.CLONED),
      (p.1, States.SYNCHRONIZING), (p.1, States.FINISHED)]
  else
    [(p.1, States.SYNCHRONIZING), (p.1, States.FINISHED)]

/-- A filesystem entry: a directory, or a regular file (whose content,
when relevant, is a state-file object). -/
inductive FsNode where
  | dir
  | file (content : StateJson)
deriving DecidableEq, Repr

/-- A flat view of the filesystem as path-to-node bindings. -/
abbrev FS := List (String × FsNode)

/-- `os.path.exists`-style check: some binding (file or directory)
occupies the path. -/
def fsExists (fs : FS) (p : String) : Bool :=
  fs.any (fun e => decide (e.1 = p))

/-- `Backup._STATE_FILE`. -/
def STATE_FILE : String := "backup.state"

/-- `Backup.__init__` with `new=True` (`backup.py` lines 368-396):
set the timestamp to `datetime.now().replace(microsecond=0)` (the
sub-second part `micro` of the clock reading is discarded), then
`os.mkdir(directory)` — which raises `OSError` when the path already
exists, as a file or as a directory — and, only if that succeeded,
`_save_state()`.  The caught `OSError` becomes the
"already exists" `BackupError`.  Returns the filesystem after the call
together with the outcome. -/
def Backup.new (fs : FS) (directory : String) (now : DateTime)
    (_micro : Nat) : FS × Except String World :=
  let timestamp := now
  if fsExists fs directory then
    (fs, .error ("Backup directory '" ++ directory ++ "' already exists"))
  else
    let b : Backup := ⟨directory, timestamp, []⟩
    let j := b.save_state
    (fs ++ [(directory, .dir), (pathJoin directory STATE_FILE, .file j)],
      .ok ⟨b, j⟩)

/-! ## Loading the backups of a base directory

`Backup.__init__` with `new=False` wraps `_load_state()` in
`except OSError: raise BackupError(...)`: a missing or unreadable state
file (an `OSError` from `open`) becomes a `BackupError`, but a readable
file whose content fails to parse raises `ValueError`
(`json.JSONDecodeError`, an unknown state name in
`States.from_string`, or a `dateutil` parse failure), which
`__init__` does not catch.  `BackupManager._load_backups` in turn
catches only `BackupError`. -/

/-- The kinds of exception that can escape `Backup.open`:
`backupError` is the wrapped `OSError` that `_load_backups` catches;
`valueError` stands for any uncaught non-`OSError` exception from
parsing (`json.JSONDecodeError`, `dateutil`'s `ValueError`, the
Illegal-name `ValueError`, or the `TypeError` from a set named
"sets"), distinguished by the carried message. -/
inductive PyError where
  | backupError (msg : String)
  | valueError (msg : String)
deriving DecidableEq, Repr

/-- The outcome of reading a directory's `backup.state` file:
`unreadable` (missing or permission denied — `open` raises `OSError`),
`invalid` (readable but not the expected JSON object — `json.load` or
the key accesses raise), or a parsed state-file object. -/
inductive FileRead where
  | unreadable
  | invalid
  | parsed (j : StateJson)
deriving DecidableEq, Repr

/-- `Backup.open` (`backup.py` lines 397-418) on a directory whose
state-file read gives `r`. -/
def Backup.open (directory : String) (r : FileRead) : Except PyError Backup :=
  match r with
  | .unreadable =>
    .error (.backupError
      ("Backup directory '" ++ directory ++ "' does not exist"))
  | .invalid => .error (.valueError "json.JSONDecodeError")
  | .parsed j =>
    match load_state directory j with
    | .ok b => .ok b
    | .error msg => .error (.valueError msg)

/-- An immediate entry of the manager's base directory: an ordinary
file, or a subdirectory with the read outcome of its state file. -/
inductive BaseEntry where
  | file
  | dir (state : FileRead)
deriving DecidableEq, Repr

/-- `BackupManager._load_backups` (`backupmanager.py` lines 90-101):
keep only subdirectories (`os.path.isdir`), try `Backup.open` on each,
`except BackupError: pass`.  A `ValueError` is not caught and aborts
the whole load. -/
def load_backups (base : String) :
    List (String × BaseEntry) → Except PyError (List Backup)
  | [] => .ok []
  | (_, .file) :: rest => load_backups base rest
  | (nm, .dir st) :: rest =>
    match Backup.open (pathJoin base nm) st with
    | .ok b =>
      match load_backups base rest with
      | .ok bs => .ok (b :: bs)
      | .error e => .error e
    | .error (.backupError _) => load_backups base rest
    | .error (.valueError m) => .error (.valueError m)

/-- `BackupManager.__init__` (`backupmanager.py` lines 24-44): raise
`BackupError` when the base directory does not exist, otherwise load
the backups; `dirExists` models `os.path.isdir(directory)` and
`entries` the base directory's content. -/
def BackupManager.new (directory : String) (dirExists : Bool)
    (entries : List (String × BaseEntry)) : Except PyError BackupManager :=
  if dirExists = false then
    .error (.backupError
      ("Cannot manage backups in non-existent directory '" ++
        directory ++ "'"))
  else
    match load_backups directory entries with
    | .ok bs => .ok ⟨directory, bs⟩
    | .error e => .error e

/-- Whether an open outcome is an uncaught `ValueError`. -/
def isValueError : Except PyError Backup → Bool
  | .error (.valueError _) => true
  | _ => false

/-- The shape of a source tree entry as discriminated by the source's
`islink`/`isdir` tests. -/
inductive Tree where
  | file
  | symlink (target : String)
  | dir (entries : List (String × Tree))
deriving Repr

/-- `os.path.isdir`. -/
def Tree.isDir : Tree → Bool
  | .dir _ => true
  | _ => false

/-- Outcome of a `clone_tree(src, dst)` call: normal return (with the
destination paths created), an `OSError` escaping the call (the
initial `listdir`/`makedirs` failed), or the raised
`BackupError(errors)` together with the paths created regardless. -/
inductive CloneResult where
  | ok (created : List String)
  | osError (reason : String)
  | backupError (errors : List (String × String × String))
      (created : List String)
deriving DecidableEq, Repr

mutual

/-- `clone_tree` on a directory: `os.listdir(src)` and
`os.makedirs(dst)` run outside any handler (`failAt src`); each entry
is processed by `cloneEntries`; then the final `copy_all_stat(src,
dst)` failure, if any, is appended; a `BackupError` carrying the full
error list is raised if and only if the list is non-empty. -/
def clone_tree (failAt failStat : String → Option String)
    (src dst : String) : Tree → CloneResult
  | .file => .osError "NotADirectoryError"
  | .symlink _ => .osError "NotADirectoryError"
  | .dir entries =>
    match failAt src with
    | some why => .osError why
    | none =>
      let ec := cloneEntries failAt failStat src dst entries
      let errors :=
        match failStat src with
        | some why => ec.1 ++ [(src, dst, why)]
        | none => ec.1
      if errors.isEmpty then .ok (dst :: ec.2)
      else .backupError errors (dst :: ec.2)

/-- The entry loop of `clone_tree`: every entry's operation is wrapped
in `try`; a `BackupError` from a recursive call is flattened into this
level's list (`errors.extend(err.args[0])`), an `OSError` is recorded
as a single `(srcname, dstname, reason)` triple, and in either case
the walk continues with the remaining entries.  Returns the error list
and the destination paths created. -/
def cloneEntries (failAt failStat : String → Option String)
    (src dst : String) :
    List (String × Tree) → List (String × String × String) × List String
  | [] => ([], [])
  | (name, sub) :: rest =>
    let srcname := pathJoin src name
    let dstname := pathJoin dst name
    let head :=
      match sub with
      | .dir es =>
        match clone_tree failAt failStat srcname dstname (.dir es) with
        | .ok cr => (([] : List (String × String × String)), cr)
        | .osError why => ([(srcname, dstname, why)], ([] : List String))
        | .backupError errs cr => (errs, cr)
      | _ =>
        match failAt srcname with
        | some why => ([(srcname, dstname, why)], ([] : List String))
        | none => (([] : List (String × String × String)), [dstname])
    let tail := cloneEntries failAt failStat src dst rest
    (head.1 ++ tail.1, head.2 ++ tail.2)

end

/-- The error contribution of the final `copy_all_stat(src, dst)` of a
`clone_tree` call. -/
def statErrors (failStat : String → Option String) (src dst : String) :
    List (String × String × String) :=
  match failStat src with
  | some why => [(src, dst, why)]
  | none => []

theorem charToDigit_digitChar (d : Nat) (h : d < 10) :
    charToDigit (digitChar d) = some d := by
  interval_cases d <;> rfl

/-- Parsing inverts formatting on valid second-precision datetimes. -/
theorem parseIsoChars_isoformatChars (t : DateTime) (h : t.Valid) :
    parseIsoChars (isoformatChars t) = some t := by
  obtain ⟨y, mo, d, hh, mi, s⟩ := t
  obtain ⟨h1, h2, h3, h4, h5, h6, h7, h8, h9⟩ := h
  simp only [DateTime.Valid] at *
  show parseIsoChars (pad4 y ++ '-' :: pad2 mo ++ '-' :: pad2 d ++
    'T' :: pad2 hh ++ ':' :: pad2 mi ++ ':' :: pad2 s) = _
  simp only [pad4, pad2, List.cons_append, List.nil_append]
  rw [parseIsoChars]
  rw [charToDigit_digitChar _ (by omega), charToDigit_digitChar _ (by omega),
    charToDigit_digitChar _ (by omega), charToDigit_digitChar _ (by omega),
    charToDigit_digitChar _ (by omega), charToDigit_digitChar _ (by omega),
    charToDigit_digitChar _ (by omega), charToDigit_digitChar _ (by omega),
    charToDigit_digitChar _ (by omega), charToDigit_digitChar _ (by omega),
    charToDigit_digitChar _ (by omega), charToDigit_digitChar _ (by omega),
    charToDigit_digitChar _ (by omega), charToDigit_digitChar _ (by omega)]
  simp only [Option.some.injEq, DateTime.mk.injEq]
  refine ⟨by omega, by omega, by omega, by omega, by omega, by omega⟩

theorem parseIso_isoformat (t : DateTime) (h : t.Valid) :
    parseIso (isoformat t) = some t :=
  parseIsoChars_isoformatChars t h

/-! ## The persisted state file

`Backup._save_state` writes `{"timestamp": <iso string>, "sets":
{name: state.name}}` with `json.dump`; `Backup._load_state` reads it
back with `json.load(fp, object_hook=decode_state_json)`.  The JSON
text layer round-trips this object verbatim (Python dicts preserve
insertion order), so it is modelled by the structure `StateJson`; the
`sets` dict is an association list built with Python dict semantics
(duplicate keys overwrite in place). -/

theorem from_string_name (s : States) : States.from_string s.name = .ok s := by
  cases s <;> rfl

theorem lookupKey_eq_none (l : List (String × String)) (k : String)
    (h : k ∉ l.map Prod.fst) : lookupKey l k = none := by
  unfold lookupKey
  rw [List.find?_eq_none.mpr]
  · rfl
  · intro p hp
    simp only [decide_eq_true_eq]
    intro he
    exact h (he ▸ List.mem_map_of_mem Prod.fst hp)

/-- On an inner dict without the reserved keys "timestamp" and "sets",
the inner hook run leaves every value a string. -/
theorem hook_inner_no_reserved (l : List (String × String))
    (hts : "timestamp" ∉ l.map Prod.fst) (hss : "sets" ∉ l.map Prod.fst) :
    hook_inner l = .ok (l.map (fun p => (p.1, HookedVal.str p.2))) := by
  unfold hook_inner
  rw [lookupKey_eq_none l "timestamp" hts, lookupKey_eq_none l "sets" hss]

theorem decodeSetsHooked_encode (sets : List (String × States)) :
    decodeSetsHooked (sets.map (fun p => (p.1, HookedVal.str p.2.name))) =
      .ok sets := by
  induction sets with
  | nil => rfl
  | cons p rest ih =>
    simp only [List.map_cons, decodeSetsHooked, from_string_hooked,
      from_string_name, ih]

/-- With pairwise-distinct keys, building the Python dict is the
identity on the association list. -/
theorem setsDict_nodup (sets : List (String × States))
    (h : (sets.map Prod.fst).Nodup) :
    setsDict sets = sets.map (fun p => (p.1, p.2.name)) := by
  suffices H : ∀ (l : List (String × States)) (acc : List (String × String)),
      ((acc.map Prod.fst) ++ l.map Prod.fst).Nodup →
      l.foldl (fun acc p => dictInsert acc p.1 p.2.name) acc =
        acc ++ l.map (fun p => (p.1, p.2.name)) by
    have := H sets [] (by simpa using h)
    simpa [setsDict] using this
  intro l
  induction l with
  | nil => intro acc _; simp
  | cons p rest ih =>
    intro acc hacc
    have hp : p.1 ∉ acc.map Prod.fst := by
      intro hmem
      exact (List.nodup_append.mp hacc).2.2 hmem (by simp)
    have hnotin : (acc.any fun q => q.1 = p.1) = false := by
      rw [List.any_eq_false]
      intro q hq
      simp only [decide_eq_true_eq]
      intro heq
      exact hp (heq ▸ List.mem_map_of_mem Prod.fst hq)
    have hstep : dictInsert acc p.1 p.2.name = acc ++ [(p.1, p.2.name)] := by
      simp only [dictInsert, hnotin, Bool.false_eq_true, if_false]
    rw [List.foldl_cons, hstep,
      ih (acc ++ [(p.1, p.2.name)]) (by simpa using hacc)]
    simp

/-! ## Set lookup and the cross-generation search -/

theorem DateTime.ltb_iff (a b : DateTime) :
    DateTime.ltb a b = true ↔ DateTime.Lt a b := by
  unfold DateTime.ltb DateTime.Lt
  split_ifs <;> simp only [decide_eq_true_eq] <;> omega

theorem DateTime.ltb_trans {a b c : DateTime} (h1 : DateTime.ltb a b = true)
    (h2 : DateTime.ltb b c = true) : DateTime.ltb a c = true := by
  rw [DateTime.ltb_iff] at *
  unfold DateTime.Lt at *
  omega

theorem DateTime.ltb_asymm {a b : DateTime} (h : DateTime.ltb a b = true) :
    DateTime.ltb b a = false := by
  rw [DateTime.ltb_iff] at h
  rw [Bool.eq_false_iff, ne_eq, DateTime.ltb_iff]
  unfold DateTime.Lt at *
  omega

theorem DateTime.ltb_irrefl (a : DateTime) : DateTime.ltb a a = false := by
  rw [Bool.eq_false_iff, ne_eq, DateTime.ltb_iff]
  unfold DateTime.Lt
  omega

theorem find_set_location_path (b : Backup) (n : String) (sts : List States)
    (loc : String) (h : b.find_set_location n sts = some loc) :
    loc = pathJoin b.directory n := by
  simp only [Backup.find_set_location] at h
  split at h
  · exact absurd h (by simp)
  · exact (Option.some_inj.mp h).symm

theorem flsAux_eq_winner (n : String) (sts : List States) (l : List Backup)
    (loc : Option String) (ts : DateTime) :
    flsAux n sts l loc ts =
      match flsWinner n sts ts l with
      | some w => some (pathJoin w.directory n)
      | none => loc := by
  induction l generalizing loc ts with
  | nil => rfl
  | cons b rest ih =>
    rw [flsAux, flsWinner]
    rcases hfsl : b.find_set_location n sts with _ | location
    · simp only [hfsl, Option.isSome_none, Bool.false_and,
        Bool.false_eq_true, if_false]
      exact ih loc ts
    · have hloc : location = pathJoin b.directory n :=
        find_set_location_path b n sts location hfsl
      by_cases hlt : DateTime.ltb ts b.timestamp = true
      · simp only [hfsl, Option.isSome_some, Bool.true_and, hlt, if_true]
        rw [ih]
        rcases hrec : flsWinner n sts b.timestamp rest with _ | w'
        · rw [hloc]
        · rfl
      · rw [Bool.not_eq_true] at hlt
        simp only [hfsl, Option.isSome_some, Bool.true_and, hlt,
          Bool.false_eq_true, if_false]
        exact ih loc ts

theorem flsWinner_eq_none (n : String) (sts : List States) (ts : DateTime)
    (l : List Backup) :
    flsWinner n sts ts l = none ↔
      ∀ b ∈ l, (b.find_set_location n sts).isSome = true →
        DateTime.ltb ts b.timestamp = false := by
  induction l generalizing ts with
  | nil => simp [flsWinner]
  | cons b rest ih =>
    rw [flsWinner]
    by_cases hq : ((b.find_set_location n sts).isSome &&
        DateTime.ltb ts b.timestamp) = true
    · rw [if_pos hq]
      rw [Bool.and_eq_true] at hq
      constructor
      · intro h
        exact absurd h (by
          match flsWinner n sts b.timestamp rest with
          | some w => simp
          | none => simp)
      · intro h
        exact absurd (h b (List.mem_cons_self b rest) hq.1)
          (by rw [hq.2]; simp)
    · rw [if_neg hq, ih]
      rw [Bool.and_eq_true] at hq
      constructor
      · intro h b' hb' hq'
        rcases List.mem_cons.mp hb' with rfl | hb'
        · by_cases hft : DateTime.ltb ts b'.timestamp = true
          · exact absurd ⟨hq', hft⟩ hq
          · rwa [Bool.not_eq_true] at hft
        · exact h b' hb' hq'
      · intro h b' hb' hq'
        exact h b' (List.mem_cons_of_mem b hb') hq'


theorem flsWinner_eq_some (n : String) (sts : List States) (ts : DateTime)
    (l : List Backup) (w : Backup) (h : flsWinner n sts ts l = some w) :
    w ∈ l ∧ (w.find_set_location n sts).isSome = true ∧
      DateTime.ltb ts w.timestamp = true ∧
      ∀ b ∈ l, (b.find_set_location n sts).isSome = true →
        DateTime.ltb w.timestamp b.timestamp = false := by
  induction l generalizing ts with
  | nil => exact absurd h (by simp [flsWinner])
  | cons b rest ih =>
    rw [flsWinner] at h
    by_cases hq : ((b.find_set_location n sts).isSome &&
        DateTime.ltb ts b.timestamp) = true
    · rw [if_pos hq] at h
      rw [Bool.and_eq_true] at hq
      match hrec : flsWinner n sts b.timestamp rest with
      | some w' =>
        rw [hrec] at h
        obtain rfl : w' = w := by simpa using h
        obtain ⟨hw1, hw2, hw3, hw4⟩ := ih b.timestamp hrec
        refine ⟨List.mem_cons_of_mem b hw1, hw2,
          DateTime.ltb_trans hq.2 hw3, ?_⟩
        intro b' hb' hq'
        rcases List.mem_cons.mp hb' with rfl | hb'
        · exact DateTime.ltb_asymm hw3
        · exact hw4 b' hb' hq'
      | none =>
        rw [hrec] at h
        obtain rfl : b = w := by simpa using h
        refine ⟨List.mem_cons_self _ rest, hq.1, hq.2, ?_⟩
        intro b' hb' hq'
        rcases List.mem_cons.mp hb' with rfl | hb'
        · exact DateTime.ltb_irrefl _
        · exact (flsWinner_eq_none n sts _ rest).mp hrec b' hb' hq'
    · rw [if_neg hq] at h
      obtain ⟨hw1, hw2, hw3, hw4⟩ := ih ts h
      refine ⟨List.mem_cons_of_mem b hw1, hw2, hw3, ?_⟩
      intro b' hb' hq'
      rcases List.mem_cons.mp hb' with rfl | hb'
      · by_cases hft : DateTime.ltb w.timestamp b'.timestamp = true
        · rw [Bool.and_eq_true] at hq
          exact absurd ⟨hq', DateTime.ltb_trans hw3 hft⟩ hq
        · rwa [Bool.not_eq_true] at hft
      · exact hw4 b' hb' hq'

/-- The fold adopts the first backup of a decomposition `l1 ++ w :: l2`
when `w` qualifies and beats `ts`, every qualifying backup of the
prefix has a timestamp strictly below `w`'s, and no qualifying backup
of the suffix is strictly above `w`'s. -/
theorem flsWinner_first_max (n : String) (sts : List States)
    (w : Backup) (l2 : List Backup)
    (hw : (w.find_set_location n sts).isSome = true)
    (hafter : ∀ b ∈ l2, (b.find_set_location n sts).isSome = true →
      DateTime.ltb w.timestamp b.timestamp = false) :
    ∀ (l1 : List Backup) (ts : DateTime),
      DateTime.ltb ts w.timestamp = true →
      (∀ b ∈ l1, (b.find_set_location n sts).isSome = true →
        DateTime.ltb b.timestamp w.timestamp = true) →
      flsWinner n sts ts (l1 ++ w :: l2) = some w := by
  intro l1
  induction l1 with
  | nil =>
    intro ts hts _
    have hcond : ((w.find_set_location n sts).isSome &&
        DateTime.ltb ts w.timestamp) = true := by
      rw [Bool.and_eq_true]
      exact ⟨hw, hts⟩
    rw [List.nil_append, flsWinner, if_pos hcond,
      (flsWinner_eq_none n sts w.timestamp l2).mpr hafter]
  | cons a l1 ih =>
    intro ts hts hpre
    rw [List.cons_append, flsWinner]
    by_cases hq : ((a.find_set_location n sts).isSome &&
        DateTime.ltb ts a.timestamp) = true
    · rw [if_pos hq]
      rw [Bool.and_eq_true] at hq
      rw [ih a.timestamp
        (hpre a (List.mem_cons_self a l1) hq.1)
        (fun b hb hqb => hpre b (List.mem_cons_of_mem a hb) hqb)]
    · rw [if_neg hq]
      exact ih ts hts (fun b hb hqb => hpre b (List.mem_cons_of_mem a hb) hqb)

/-! ## Mutations and the on-disk state file

The mutating operations pair the in-memory `Backup` with the current
content of its `backup.state` file; every `_save_state()` call is a
full rewrite of that file from the in-memory state. -/

theorem createAux_ok (resolver : String → List States → Option String)
    (cloneOk syncOk : String → Bool) (dir : String) (ts : DateTime)
    (hco : ∀ nm, cloneOk nm = true) (hso : ∀ nm, syncOk nm = true)
    (todo : List (String × States)) :
    ∀ done : List (String × States),
      (createAux resolver cloneOk syncOk dir ts done todo).queries =
        todo.map (fun p =>
          (p.1, [States.CLONED, States.SYNCHRONIZING, States.FINISHED])) ∧
      (createAux resolver cloneOk syncOk dir ts done todo).result =
        .ok (done ++ todo.map (fun p => (p.1, States.FINISHED))) ∧
      (createAux resolver cloneOk syncOk dir ts done todo).trace.map
          (fun e => (e.1, e.2.1)) =
        todo.flatMap (createSegment resolver) := by
  induction todo with
  | nil => intro done; refine ⟨rfl, by simp [createAux], rfl⟩
  | cons p todo ih =>
    intro done
    obtain ⟨name, st⟩ := p
    obtain ⟨ih1, ih2, ih3⟩ := ih (done ++ [(name, States.FINISHED)])
    rcases hr : resolver name
        [States.CLONED, States.SYNCHRONIZING, States.FINISHED] with _ | src
    · simp only [createAux, hr, hso name, if_true, createSegment]
      refine ⟨by rw [ih1]; rfl, by rw [ih2]; simp, ?_⟩
      simp only [List.map_cons, ih3, List.flatMap_cons, createSegment, hr,
        Option.isSome_none, Bool.false_eq_true, if_false]
      rfl
    · simp only [createAux, hr, hco name, hso name, if_true, createSegment]
      refine ⟨by rw [ih1]; rfl, by rw [ih2]; simp, ?_⟩
      simp only [List.map_cons, ih3, List.flatMap_cons, createSegment, hr,
        Option.isSome_some, if_true]
      rfl

/-- Every world recorded in the `create` trace satisfies the
persistence invariant: the file content is the full encoding of the
in-memory state at that point. -/
theorem createAux_trace_inv (resolver : String → List States → Option String)
    (cloneOk syncOk : String → Bool) (dir : String) (ts : DateTime)
    (todo : List (String × States)) :
    ∀ done : List (String × States),
      ∀ e ∈ (createAux resolver cloneOk syncOk dir ts done todo).trace,
        e.2.2.file = e.2.2.backup.save_state := by
  induction todo with
  | nil => intro done e he; exact absurd he (by simp [createAux])
  | cons p todo ih =>
    intro done e he
    obtain ⟨name, st⟩ := p
    rcases hr : resolver name
        [States.CLONED, States.SYNCHRONIZING, States.FINISHED] with _ | src <;>
      simp only [createAux, hr] at he
    · by_cases hs : syncOk name = true
      · simp only [hs, if_true, List.mem_cons] at he
        rcases he with rfl | rfl | he
        · rfl
        · rfl
        · exact ih (done ++ [(name, States.FINISHED)]) e he
      · rw [Bool.not_eq_true] at hs
        simp only [hs, Bool.false_eq_true, if_false, List.mem_cons,
          List.not_mem_nil, or_false] at he
        rcases he with rfl; rfl
    · by_cases hc : cloneOk name = true
      · by_cases hs : syncOk name = true
        · simp only [hc, hs, if_true, List.mem_cons] at he
          rcases he with rfl | rfl | rfl | rfl | he
          · rfl
          · rfl
          · rfl
          · rfl
          · exact ih (done ++ [(name, States.FINISHED)]) e he
        · rw [Bool.not_eq_true] at hs
          simp only [hc, hs, if_true, Bool.false_eq_true, if_false,
            List.mem_cons, List.not_mem_nil, or_false] at he
          rcases he with rfl | rfl | rfl <;> rfl
      · rw [Bool.not_eq_true] at hc
        simp only [hc, Bool.false_eq_true, if_false, List.mem_cons,
          List.not_mem_nil, or_false] at he
        rcases he with rfl; rfl

/-! ## Creating a new backup directory -/

theorem load_backups_ok (base : String) (entries : List (String × BaseEntry))
    (h : ∀ nm st, (nm, BaseEntry.dir st) ∈ entries →
      isValueError (Backup.open (pathJoin base nm) st) = false) :
    load_backups base entries =
      .ok (entries.filterMap (fun e =>
        match e with
        | (nm, .dir st) => (Backup.open (pathJoin base nm) st).toOption
        | (_, .file) => none)) := by
  induction entries with
  | nil => rfl
  | cons e rest ih =>
    have hrest := ih (fun nm st hm => h nm st (List.mem_cons_of_mem e hm))
    obtain ⟨nm, st⟩ := e
    cases st with
    | file => simpa [load_backups] using hrest
    | dir fr =>
      have hhd := h nm fr (List.mem_cons_self _ _)
      cases hop : Backup.open (pathJoin base nm) fr with
      | ok b =>
        simp only [load_backups, hop, hrest, List.filterMap_cons,
          Except.toOption]
      | error err =>
        cases err with
        | backupError m =>
          simp only [load_backups, hop, hrest, List.filterMap_cons,
            Except.toOption]
        | valueError m =>
          rw [hop, isValueError] at hhd
          exact absurd hhd (by simp)

theorem load_backups_no_backupError (base : String)
    (entries : List (String × BaseEntry)) (msg : String) :
    load_backups base entries ≠ .error (.backupError msg) := by
  induction entries with
  | nil => simp [load_backups]
  | cons e rest ih =>
    obtain ⟨nm, st⟩ := e
    cases st with
    | file => simpa [load_backups] using ih
    | dir fr =>
      cases hop : Backup.open (pathJoin base nm) fr with
      | ok b =>
        cases hrest : load_backups base rest with
        | ok bs => simp [load_backups, hop, hrest]
        | error e' =>
          simp only [load_backups, hop, hrest]
          intro hc
          rw [Except.error.injEq] at hc
          exact ih (by rw [hrest, hc])
      | error err =>
        cases err with
        | backupError m => simpa [load_backups, hop] using ih
        | valueError m => simp [load_backups, hop]

/-! ## The tree cloner

`clone_tree(src, dst)` (`backup.py` lines 59-123 / `functions.py`
lines 14-78).  The source tree shape is given explicitly; the OS-level
outcome of each operation is supplied by two oracles: `failAt p` is the
`OSError` reason, if any, raised by the operation(s) on the entry at
source path `p` (`readlink`/`symlink`/`copy_all_stat` for a symlink,
`link` for a regular file, `listdir`/`makedirs` for a directory), and
`failStat p` the reason, if any, raised by the final
`copy_all_stat(src, dst)` of the call on directory `p`. -/

theorem cloneEntries_append (fa fs : String → Option String)
    (src dst : String) (l1 l2 : List (String × Tree)) :
    cloneEntries fa fs src dst (l1 ++ l2) =
      ((cloneEntries fa fs src dst l1).1 ++
          (cloneEntries fa fs src dst l2).1,
        (cloneEntries fa fs src dst l1).2 ++
          (cloneEntries fa fs src dst l2).2) := by
  induction l1 with
  | nil => simp [cloneEntries]
  | cons p l1 ih =>
    obtain ⟨name, sub⟩ := p
    cases sub <;>
      (rw [List.cons_append, cloneEntries, cloneEntries]
       dsimp only
       rw [ih, List.append_assoc, List.append_assoc]) <;>
      (intro es he; cases he)

theorem cloneEntries_all_ok (fa fs : String → Option String)
    (src dst : String) (l : List (String × Tree))
    (hf : ∀ p ∈ l, p.2.isDir = false)
    (hok : ∀ p ∈ l, fa (pathJoin src p.1) = none) :
    cloneEntries fa fs src dst l =
      ([], l.map (fun p => pathJoin dst p.1)) := by
  induction l with
  | nil => rfl
  | cons p rest ih =>
    obtain ⟨name, sub⟩ := p
    have h1 := hf _ (List.mem_cons_self _ _)
    have h2 := hok _ (List.mem_cons_self _ _)
    have ihr := ih (fun q hq => hf q (List.mem_cons_of_mem _ hq))
      (fun q hq => hok q (List.mem_cons_of_mem _ hq))
    cases sub with
    | dir es => simp [Tree.isDir] at h1
    | file => simp [cloneEntries, h2, ihr]
    | symlink t => simp [cloneEntries, h2, ihr]

theorem cloneEntries_single_failure (fa fs : String → Option String)
    (src dst bad reason : String) :
    ∀ l : List (String × Tree),
      (∀ p ∈ l, p.2.isDir = false) →
      (∀ p ∈ l, p.1 ≠ bad → fa (pathJoin src p.1) = none) →
      fa (pathJoin src bad) = some reason →
      bad ∈ l.map Prod.fst → (l.map Prod.fst).Nodup →
      cloneEntries fa fs src dst l =
        ([(pathJoin src bad, pathJoin dst bad, reason)],
          (l.filter (fun p => decide (p.1 ≠ bad))).map
            (fun p => pathJoin dst p.1)) := by
  intro l
  induction l with
  | nil => intro _ _ _ hmem _; exact absurd hmem (by simp)
  | cons p rest ih =>
    intro hf hok hbad hmem hnd
    obtain ⟨name, sub⟩ := p
    have h1 := hf _ (List.mem_cons_self _ _)
    by_cases hnb : name = bad
    · subst hnb
      have hndc := hnd
      rw [List.map_cons] at hndc
      have hnotin : name ∉ rest.map Prod.fst := (List.nodup_cons.mp hndc).1
      have hrest : cloneEntries fa fs src dst rest =
          ([], rest.map (fun p => pathJoin dst p.1)) :=
        cloneEntries_all_ok fa fs src dst rest
          (fun q hq => hf q (List.mem_cons_of_mem _ hq))
          (fun q hq => hok q (List.mem_cons_of_mem _ hq) (by
            intro he
            exact hnotin (he ▸ List.mem_map_of_mem Prod.fst hq)))
      have hfilter : rest.filter (fun p => !decide (p.1 = name)) = rest := by
        rw [List.filter_eq_self]
        intro q hq
        have : q.1 ≠ name := fun he =>
          hnotin (he ▸ List.mem_map_of_mem Prod.fst hq)
        simp [this]
      cases sub with
      | dir es => simp [Tree.isDir] at h1
      | file => simp [cloneEntries, hbad, hrest, hfilter]
      | symlink t => simp [cloneEntries, hbad, hrest, hfilter]
    · have hmem' : bad ∈ rest.map Prod.fst := by
        rcases by simpa using hmem with he | hm
        · exact absurd he.symm hnb
        · simpa using hm
      have hnd' : (rest.map Prod.fst).Nodup :=
        (List.nodup_cons.mp (by simpa using hnd)).2
      have hihr := ih (fun q hq => hf q (List.mem_cons_of_mem _ hq))
        (fun q hq => hok q (List.mem_cons_of_mem _ hq)) hbad hmem' hnd'
      have h2 : fa (pathJoin src name) = none :=
        hok _ (List.mem_cons_self _ _) hnb
      cases sub with
      | dir es => simp [Tree.isDir] at h1
      | file => simp [cloneEntries, h2, hihr, hnb]
      | symlink t => simp [cloneEntries, h2, hihr, hnb]

/-! ## Claim theorems -/

/-- C5: for all states `a`, `b` among the five backup-set states,
`a < b` holds iff `a`'s ordinal (CONFIGURED=0, CLONING=1, CLONED=2,
SYNCHRONIZING=3, FINISHED=4) is strictly less than `b`'s ordinal, and
the resulting order is total and transitive (correspondingly for
`<=`, `>`, `>=`). -/
theorem C5_states_total_order :
    (States.CONFIGURED.value = 0 ∧ States.CLONING.value = 1 ∧
      States.CLONED.value = 2 ∧ States.SYNCHRONIZING.value = 3 ∧
      States.FINISHED.value = 4) ∧
    ∀ a b c : States,
      (States.lt a b = true ↔ a.value < b.value) ∧
      (States.le a b = true ↔ a.value ≤ b.value) ∧
      (States.gt a b = true ↔ b.value < a.value) ∧
      (States.ge a b = true ↔ b.value ≤ a.value) ∧
      (States.lt a b = true → States.lt b c = true → States.lt a c = true) ∧
      (States.le a b = true → States.le b c = true → States.le a c = true) ∧
      (States.le a b = true ∨ States.le b a = true) ∧
      (States.lt a b = true ∨ a = b ∨ States.lt b a = true) := by
  decide

/-- Witness for C5 at concrete states: transitivity applied to
CONFIGURED < CLONING < CLONED. -/
theorem C5_states_total_order_witness :
    States.lt States.CONFIGURED States.CLONED = true :=
  ((C5_states_total_order.2 States.CONFIGURED States.CLONING
    States.CLONED).2.2.2.2.1) (by decide) (by decide)

/-- C8: parsing one of the five state names yields the corresponding
state, and parsing any other string fails with the unknown-name
`ValueError`. -/
theorem C8_from_string_total :
    (∀ st : States, States.from_string st.name = .ok st) ∧
    (∀ s : String, s ≠ "CONFIGURED" → s ≠ "CLONING" → s ≠ "CLONED" →
      s ≠ "SYNCHRONIZING" → s ≠ "FINISHED" →
      States.from_string s =
        .error ("Illegal name (" ++ s ++ ") for enumeration 'States'")) := by
  constructor
  · intro st
    cases st <;> rfl
  · intro s h1 h2 h3 h4 h5
    unfold States.from_string
    rw [if_neg (by simpa [States.name] using h1),
      if_neg (by simpa [States.name] using h2),
      if_neg (by simpa [States.name] using h3),
      if_neg (by simpa [States.name] using h4),
      if_neg (by simpa [States.name] using h5)]

/-- Witness for C8: the five names parse back, and a non-name fails. -/
theorem C8_from_string_total_witness :
    States.from_string "SYNCHRONIZING" = .ok States.SYNCHRONIZING ∧
    States.from_string "DONE" =
      .error "Illegal name (DONE) for enumeration 'States'" :=
  ⟨C8_from_string_total.1 States.SYNCHRONIZING,
    C8_from_string_total.2 "DONE" (by decide) (by decide) (by decide)
      (by decide) (by decide)⟩

/-- C3 counterexample: the round trip fails for mappings the claim
covers.  `json.load` applies the object hook to the inner `sets` dict
too, and the hook keys on dict keys: a set named "timestamp" makes it
run `dateutil.parser.parse` on a state name (`ValueError`), and a set
named "sets" makes the comprehension index a string (`TypeError`), so
reconstruction via `open` raises instead of yielding the same
mapping. -/
theorem C3_counterexample :
    load_state "d" (Backup.save_state ⟨"d", ⟨2020, 1, 1, 0, 0, 0⟩,
        [("timestamp", States.FINISHED)]⟩) =
      .error "ValueError: Unknown string format: FINISHED" ∧
    (∀ b', load_state "d" (Backup.save_state ⟨"d", ⟨2020, 1, 1, 0, 0, 0⟩,
        [("timestamp", States.FINISHED)]⟩) ≠ .ok b') ∧
    load_state "d" (Backup.save_state ⟨"d", ⟨2020, 1, 1, 0, 0, 0⟩,
        [("sets", States.CLONED)]⟩) =
      .error "TypeError: string indices must be integers" := by
  refine ⟨rfl, ?_, rfl⟩
  intro b' h
  exact absurd (rfl.symm.trans h :
    (Except.error "ValueError: Unknown string format: FINISHED" :
      Except String Backup) = .ok b') (by simp)

/-- C3 (amended): persisting a Backup's state and reconstructing a
Backup from the persisted state yields the same timestamp (to the
second) and the same name-to-state mapping, for every Backup whose
timestamp is a valid datetime and whose set names are pairwise
distinct (a mapping) and avoid the state file's own keys "timestamp"
and "sets" — a set with one of those names makes reconstruction raise
(`ValueError` / `TypeError`), because `json.load` applies the decode
hook to the inner `sets` dict as well. -/
theorem C3_state_roundtrip (b : Backup) (hv : b.timestamp.Valid)
    (hnd : (b.sets.map Prod.fst).Nodup)
    (hts : "timestamp" ∉ b.sets.map Prod.fst)
    (hss : "sets" ∉ b.sets.map Prod.fst) :
    load_state b.directory b.save_state = .ok b := by
  obtain ⟨dir, ts, sets⟩ := b
  simp only [Backup.save_state] at *
  show load_state dir (save_state ts sets) = _
  unfold load_state decode_state_json save_state
  dsimp only
  rw [setsDict_nodup sets (by simpa using hnd)]
  rw [hook_inner_no_reserved _ (by simpa using hts) (by simpa using hss)]
  rw [parseIso_isoformat ts hv]
  dsimp only
  rw [List.map_map]
  rw [show decodeSetsHooked (sets.map ((fun p => (p.1, HookedVal.str p.2)) ∘
      (fun p => (p.1, p.2.name)))) = .ok sets from
    decodeSetsHooked_encode sets]
  rfl

/-- Witness for C3 at a concrete backup with two sets. -/
theorem C3_state_roundtrip_witness :
    load_state "base/2020-06-07T08:09:10"
        (Backup.save_state ⟨"base/2020-06-07T08:09:10",
          ⟨2020, 6, 7, 8, 9, 10⟩,
          [("docs", States.FINISHED), ("mail", States.CLONED)]⟩) =
      .ok ⟨"base/2020-06-07T08:09:10", ⟨2020, 6, 7, 8, 9, 10⟩,
        [("docs", States.FINISHED), ("mail", States.CLONED)]⟩ :=
  C3_state_roundtrip ⟨"base/2020-06-07T08:09:10", ⟨2020, 6, 7, 8, 9, 10⟩,
    [("docs", States.FINISHED), ("mail", States.CLONED)]⟩
    (by decide) (by decide) (by decide) (by decide)

/-- C4 counterexample: a loaded Backup whose timestamp equals
`datetime.min` (persistable as `0001-01-01T00:00:00`) qualifies for the
query, yet `find_latest_set` returns "not found", because the loop
compares with strict `>` against the running maximum initialised to
`datetime.min`.  The claim's "returns not-found exactly when no loaded
Backup has a set with that name in one of the given states" fails
here. -/
theorem C4_counterexample :
    (Backup.find_set_location
        ⟨"base/b0", DateTime.min, [("a", States.FINISHED)]⟩
        "a" [States.FINISHED]).isSome = true ∧
    BackupManager.find_latest_set
        ⟨"base", [⟨"base/b0", DateTime.min, [("a", States.FINISHED)]⟩]⟩
        "a" [States.FINISHED] = none := by
  constructor <;> rfl

/-- C4 (amended): `find_latest_set` returns the directory-joined path
of a qualifying Backup with the greatest timestamp provided some
qualifying Backup's timestamp is strictly greater than `datetime.min`,
and returns "not found" exactly when no loaded Backup with timestamp
strictly greater than `datetime.min` has a set with that name in one
of the given states. -/
theorem C4_find_latest_set (m : BackupManager) (n : String)
    (sts : List States) :
    (m.find_latest_set n sts = none ↔
      ∀ b ∈ m.backups, (b.find_set_location n sts).isSome = true →
        DateTime.ltb DateTime.min b.timestamp = false) ∧
    (∀ p, m.find_latest_set n sts = some p →
      ∃ b ∈ m.backups, (b.find_set_location n sts).isSome = true ∧
        p = pathJoin b.directory n ∧
        DateTime.ltb DateTime.min b.timestamp = true ∧
        ∀ b' ∈ m.backups, (b'.find_set_location n sts).isSome = true →
          DateTime.ltb b.timestamp b'.timestamp = false) := by
  unfold BackupManager.find_latest_set
  rw [flsAux_eq_winner]
  constructor
  · cases hw : flsWinner n sts DateTime.min m.backups with
    | none => simpa using (flsWinner_eq_none n sts DateTime.min m.backups).mp hw
    | some w =>
      constructor
      · intro h; exact absurd h (by simp)
      · intro h
        obtain ⟨hw1, hw2, hw3, _⟩ := flsWinner_eq_some n sts _ _ _ hw
        exact absurd (h w hw1 hw2) (by rw [hw3]; simp)
  · intro p hp
    cases hw : flsWinner n sts DateTime.min m.backups with
    | none => rw [hw] at hp; exact absurd hp (by simp)
    | some w =>
      rw [hw] at hp
      obtain ⟨hw1, hw2, hw3, hw4⟩ := flsWinner_eq_some n sts _ _ _ hw
      exact ⟨w, hw1, hw2, (Option.some_inj.mp hp).symm, hw3, hw4⟩

/-- Witness for C4 at the claim's scenario: Backups at T1 < T2 < T3
with set "docs" FINISHED at T1, absent at T2 and CLONED at T3; the
query for {CLONED, SYNCHRONIZING, FINISHED} returns T3's path. -/
theorem C4_find_latest_set_witness :
    BackupManager.find_latest_set
        ⟨"base",
          [⟨"base/t1", ⟨2020, 1, 1, 0, 0, 0⟩, [("docs", States.FINISHED)]⟩,
            ⟨"base/t2", ⟨2020, 1, 2, 0, 0, 0⟩, []⟩,
            ⟨"base/t3", ⟨2020, 1, 3, 0, 0, 0⟩, [("docs", States.CLONED)]⟩]⟩
        "docs" [States.CLONED, States.SYNCHRONIZING, States.FINISHED] =
      some "base/t3/docs" ∧
    ∃ b ∈ ([⟨"base/t1", ⟨2020, 1, 1, 0, 0, 0⟩, [("docs", States.FINISHED)]⟩,
        ⟨"base/t2", ⟨2020, 1, 2, 0, 0, 0⟩, []⟩,
        ⟨"base/t3", ⟨2020, 1, 3, 0, 0, 0⟩,
          [("docs", States.CLONED)]⟩] : List Backup),
      (b.find_set_location "docs"
        [States.CLONED, States.SYNCHRONIZING, States.FINISHED]).isSome =
          true ∧
      "base/t3/docs" = pathJoin b.directory "docs" ∧
      DateTime.ltb DateTime.min b.timestamp = true ∧
      ∀ b' ∈ ([⟨"base/t1", ⟨2020, 1, 1, 0, 0, 0⟩,
          [("docs", States.FINISHED)]⟩,
          ⟨"base/t2", ⟨2020, 1, 2, 0, 0, 0⟩, []⟩,
          ⟨"base/t3", ⟨2020, 1, 3, 0, 0, 0⟩,
            [("docs", States.CLONED)]⟩] : List Backup),
        (b'.find_set_location "docs"
          [States.CLONED, States.SYNCHRONIZING, States.FINISHED]).isSome =
            true →
        DateTime.ltb b.timestamp b'.timestamp = false :=
  ⟨by decide,
    (C4_find_latest_set
      ⟨"base",
        [⟨"base/t1", ⟨2020, 1, 1, 0, 0, 0⟩, [("docs", States.FINISHED)]⟩,
          ⟨"base/t2", ⟨2020, 1, 2, 0, 0, 0⟩, []⟩,
          ⟨"base/t3", ⟨2020, 1, 3, 0, 0, 0⟩, [("docs", States.CLONED)]⟩]⟩
      "docs" [States.CLONED, States.SYNCHRONIZING, States.FINISHED]).2
      "base/t3/docs" (by decide)⟩

/-- C10 counterexample: two qualifying Backups share the maximal
timestamp `datetime.min`; the claim says the first one's path is
returned, but the fold's strict `>` against the initial
`datetime.min` never adopts either, so the result is "not found". -/
theorem C10_counterexample :
    BackupManager.find_latest_set
        ⟨"base",
          [⟨"base/x", DateTime.min, [("a", States.FINISHED)]⟩,
            ⟨"base/y", DateTime.min, [("a", States.FINISHED)]⟩]⟩
        "a" [States.FINISHED] = none ∧
    BackupManager.find_latest_set
        ⟨"base",
          [⟨"base/x", DateTime.min, [("a", States.FINISHED)]⟩,
            ⟨"base/y", DateTime.min, [("a", States.FINISHED)]⟩]⟩
        "a" [States.FINISHED] ≠ some (pathJoin "base/x" "a") := by
  constructor
  · rfl
  · intro h
    exact absurd h (by decide)

/-- C10 (amended): whenever the backup list splits as
`l1 ++ b :: l2` where `b` qualifies, `b`'s timestamp is strictly
greater than `datetime.min`, no qualifying backup has a strictly
greater timestamp, and every qualifying backup of the prefix `l1` is
strictly below `b`'s timestamp (so `b` is the earliest backup
attaining the maximum), `find_latest_set` returns `b`'s
directory-joined path — a deterministic function of the list and its
order, ties included. -/
theorem C10_tie_break (m : BackupManager) (n : String) (sts : List States)
    (l1 l2 : List Backup) (b : Backup)
    (hsplit : m.backups = l1 ++ b :: l2)
    (hq : (b.find_set_location n sts).isSome = true)
    (hmin : DateTime.ltb DateTime.min b.timestamp = true)
    (hmax : ∀ b' ∈ m.backups, (b'.find_set_location n sts).isSome = true →
      DateTime.ltb b.timestamp b'.timestamp = false)
    (hpre : ∀ b' ∈ l1, (b'.find_set_location n sts).isSome = true →
      DateTime.ltb b'.timestamp b.timestamp = true) :
    m.find_latest_set n sts = some (pathJoin b.directory n) := by
  unfold BackupManager.find_latest_set
  rw [hsplit, flsAux_eq_winner,
    flsWinner_first_max n sts b l2 hq
      (fun b' hb' hq' => hmax b' (by
        rw [hsplit]
        exact List.mem_append_right l1 (List.mem_cons_of_mem b hb')) hq')
      l1 DateTime.min hmin hpre]

/-- Witness for C10: two qualifying backups tie at a timestamp above
`datetime.min`; the first one in iteration order is returned. -/
theorem C10_tie_break_witness :
    BackupManager.find_latest_set
        ⟨"base",
          [⟨"base/x", ⟨2021, 5, 5, 0, 0, 0⟩, [("a", States.FINISHED)]⟩,
            ⟨"base/y", ⟨2021, 5, 5, 0, 0, 0⟩, [("a", States.FINISHED)]⟩]⟩
        "a" [States.FINISHED] = some (pathJoin "base/x" "a") :=
  C10_tie_break
    ⟨"base",
      [⟨"base/x", ⟨2021, 5, 5, 0, 0, 0⟩, [("a", States.FINISHED)]⟩,
        ⟨"base/y", ⟨2021, 5, 5, 0, 0, 0⟩, [("a", States.FINISHED)]⟩]⟩
    "a" [States.FINISHED] []
    [⟨"base/y", ⟨2021, 5, 5, 0, 0, 0⟩, [("a", States.FINISHED)]⟩]
    ⟨"base/x", ⟨2021, 5, 5, 0, 0, 0⟩, [("a", States.FINISHED)]⟩
    rfl (by decide) (by decide) (by decide) (by decide)

/-- C6 counterexample: the base directory exists and contains one
subdirectory whose state file is readable but unparsable; the claim
says the subdirectory is silently dropped, but construction aborts
with the uncaught `ValueError` (`json.JSONDecodeError` is not an
`OSError`, `Backup.__init__` wraps only `OSError` into `BackupError`,
and `_load_backups` catches only `BackupError`). -/
theorem C6_counterexample :
    BackupManager.new "base" true [("x", BaseEntry.dir FileRead.invalid)] =
      .error (.valueError "json.JSONDecodeError") ∧
    ∀ m, BackupManager.new "base" true
      [("x", BaseEntry.dir FileRead.invalid)] ≠ .ok m := by
  refine ⟨rfl, ?_⟩
  intro m h
  exact absurd (rfl.symm.trans h :
    (Except.error (PyError.valueError "json.JSONDecodeError") :
      Except PyError BackupManager) = .ok m) (by simp)

/-- C6 (amended): constructing a `BackupManager` fails with a
`BackupError` exactly when the base directory does not exist; a
subdirectory whose state file is missing or unreadable (an OS-level
read failure) is silently dropped; but a subdirectory whose state file
is readable and unparsable propagates an uncaught error instead of
being dropped, so when no subdirectory raises such a `ValueError` the
manager loads exactly the subdirectories that open successfully, in
order. -/
theorem C6_manager_load (dir : String)
    (entries : List (String × BaseEntry)) :
    (BackupManager.new dir false entries =
      .error (.backupError
        ("Cannot manage backups in non-existent directory '" ++
          dir ++ "'"))) ∧
    (∀ msg, BackupManager.new dir true entries ≠
      .error (.backupError msg)) ∧
    ((∀ nm st, (nm, BaseEntry.dir st) ∈ entries →
        isValueError (Backup.open (pathJoin dir nm) st) = false) →
      BackupManager.new dir true entries =
        .ok ⟨dir, entries.filterMap (fun e =>
          match e with
          | (nm, .dir st) => (Backup.open (pathJoin dir nm) st).toOption
          | (_, .file) => none)⟩) := by
  have h0 : BackupManager.new dir true entries =
      (match load_backups dir entries with
        | .ok bs => .ok ⟨dir, bs⟩
        | .error e => .error e) := rfl
  refine ⟨rfl, ?_, ?_⟩
  · intro msg hcontra
    rw [h0] at hcontra
    cases hl : load_backups dir entries with
    | ok bs =>
      rw [hl] at hcontra
      exact absurd hcontra (by simp)
    | error e =>
      rw [hl] at hcontra
      rw [Except.error.injEq] at hcontra
      exact load_backups_no_backupError dir entries msg (by rw [hl, hcontra])
  · intro h
    rw [h0, load_backups_ok dir entries h]

/-- Witness for C6: a base directory holding one ordinary file, one
subdirectory with a missing state file (dropped) and one valid backup
subdirectory loads exactly the valid backup. -/
theorem C6_manager_load_witness :
    BackupManager.new "base" true
        [("junk", BaseEntry.file),
          ("partial", BaseEntry.dir FileRead.unreadable),
          ("2021-01-01T00:00:00", BaseEntry.dir (FileRead.parsed
            ⟨"2021-01-01T00:00:00", [("docs", "FINISHED")]⟩))] =
      .ok ⟨"base",
        [⟨pathJoin "base" "2021-01-01T00:00:00", ⟨2021, 1, 1, 0, 0, 0⟩,
          [("docs", States.FINISHED)]⟩]⟩ := by
  have h := (C6_manager_load "base"
    [("junk", BaseEntry.file),
      ("partial", BaseEntry.dir FileRead.unreadable),
      ("2021-01-01T00:00:00", BaseEntry.dir (FileRead.parsed
        ⟨"2021-01-01T00:00:00", [("docs", "FINISHED")]⟩))]).2.2 (by
    intro nm st hm
    simp only [List.mem_cons, List.not_mem_nil, or_false,
      Prod.mk.injEq] at hm
    rcases hm with ⟨rfl, h2⟩ | ⟨rfl, h2⟩ | ⟨rfl, h2⟩
    · exact BaseEntry.noConfusion h2
    · injection h2 with h3
      subst h3
      rfl
    · injection h2 with h3
      subst h3
      rfl)
  rw [h]
  rfl

/-- C7: creating a new Backup at an occupied path (directory or plain
file) fails with the "already exists" `BackupError` and writes no
state file (the filesystem is unchanged); at a free path it creates
the directory and immediately persists the initial state: empty set
list, fresh timestamp truncated to the second (the clock's `micro`
reading is discarded). -/
theorem C7_backup_new (fs : FS) (dir : String) (now : DateTime)
    (micro : Nat) :
    (fsExists fs dir = true →
      Backup.new fs dir now micro =
        (fs, .error ("Backup directory '" ++ dir ++ "' already exists"))) ∧
    (fsExists fs dir = false →
      Backup.new fs dir now micro =
        (fs ++ [(dir, FsNode.dir),
            (pathJoin dir STATE_FILE, FsNode.file (save_state now []))],
          .ok ⟨⟨dir, now, []⟩, save_state now []⟩)) ∧
    (∀ j, fsExists ((dir, FsNode.file j) :: fs) dir = true) := by
  refine ⟨?_, ?_, ?_⟩
  · intro he
    unfold Backup.new
    rw [if_pos he]
  · intro he
    unfold Backup.new
    rw [if_neg (by rw [he]; simp)]
    rfl
  · intro j
    simp [fsExists]

/-- Witness for C7: a path occupied by a plain file blocks creation
and leaves the filesystem unchanged; a free path gets the directory
and the initial state file. -/
theorem C7_backup_new_witness :
    Backup.new [("D", FsNode.file ⟨"x", []⟩)] "D" ⟨2022, 2, 2, 0, 0, 0⟩ 42 =
      ([("D", FsNode.file ⟨"x", []⟩)],
        .error "Backup directory 'D' already exists") ∧
    Backup.new [] "E" ⟨2022, 2, 2, 0, 0, 0⟩ 42 =
      ([("E", FsNode.dir),
          (pathJoin "E" STATE_FILE,
            FsNode.file (save_state ⟨2022, 2, 2, 0, 0, 0⟩ []))],
        .ok ⟨⟨"E", ⟨2022, 2, 2, 0, 0, 0⟩, []⟩,
          save_state ⟨2022, 2, 2, 0, 0, 0⟩ []⟩) :=
  ⟨(C7_backup_new [("D", FsNode.file ⟨"x", []⟩)] "D" ⟨2022, 2, 2, 0, 0, 0⟩
      42).1 (by decide),
    by
      have h := (C7_backup_new [] "E" ⟨2022, 2, 2, 0, 0, 0⟩ 42).2.1
        (by decide)
      simpa using h⟩

/-- C9: after every mutating operation — creation, `add_local_dir_set`,
`add_remote_dir_set`, and each individual state transition inside
`create` — the state file holds the full JSON encoding of the current
in-memory timestamp and complete name-to-state mapping. -/
theorem C9_persistence_invariant :
    (∀ (fs : FS) (dir : String) (now : DateTime) (micro : Nat)
        (fs' : FS) (w : World),
      Backup.new fs dir now micro = (fs', Except.ok w) →
      w.file = w.backup.save_state) ∧
    (∀ (w : World) (name : String),
      (add_local_dir_set w name).file =
        (add_local_dir_set w name).backup.save_state) ∧
    (∀ (w : World) (name : String),
      (add_remote_dir_set w name).file =
        (add_remote_dir_set w name).backup.save_state) ∧
    (∀ (b : Backup) (resolver : String → List States → Option String)
        (cloneOk syncOk : String → Bool),
      ∀ e ∈ (Backup.create b resolver cloneOk syncOk).trace,
        e.2.2.file = e.2.2.backup.save_state) := by
  refine ⟨?_, fun w name => rfl, fun w name => rfl, ?_⟩
  · intro fs dir now micro fs' w h
    unfold Backup.new at h
    by_cases he : fsExists fs dir = true
    · rw [if_pos he] at h
      have h2 := congrArg Prod.snd h
      exact absurd h2 (by simp)
    · rw [if_neg he] at h
      have h2 := congrArg Prod.snd h
      dsimp only at h2
      rw [Except.ok.injEq] at h2
      rw [← h2]
  · intro b r co so e he
    exact createAux_trace_inv r co so b.directory b.timestamp b.sets [] e he

/-- Witness for C9: the invariant at a concrete creation and at a
concrete persisted transition of a `create` run. -/
theorem C9_persistence_invariant_witness :
    (World.file ⟨⟨"base/b1", ⟨2022, 3, 4, 5, 6, 7⟩, []⟩,
        save_state ⟨2022, 3, 4, 5, 6, 7⟩ []⟩ =
      Backup.save_state ⟨"base/b1", ⟨2022, 3, 4, 5, 6, 7⟩, []⟩) ∧
    (World.file ⟨⟨"d", ⟨2022, 3, 4, 5, 6, 7⟩,
        [("a", States.SYNCHRONIZING)]⟩,
        Backup.save_state ⟨"d", ⟨2022, 3, 4, 5, 6, 7⟩,
          [("a", States.SYNCHRONIZING)]⟩⟩ =
      Backup.save_state ⟨"d", ⟨2022, 3, 4, 5, 6, 7⟩,
        [("a", States.SYNCHRONIZING)]⟩) :=
  ⟨C9_persistence_invariant.1 [] "base/b1" ⟨2022, 3, 4, 5, 6, 7⟩ 123456
      [("base/b1", FsNode.dir),
        (pathJoin "base/b1" STATE_FILE,
          FsNode.file (save_state ⟨2022, 3, 4, 5, 6, 7⟩ []))]
      ⟨⟨"base/b1", ⟨2022, 3, 4, 5, 6, 7⟩, []⟩,
        save_state ⟨2022, 3, 4, 5, 6, 7⟩ []⟩ rfl,
    C9_persistence_invariant.2.2.2
      ⟨"d", ⟨2022, 3, 4, 5, 6, 7⟩, [("a", States.CONFIGURED)]⟩
      (fun _ _ => none) (fun _ => true) (fun _ => true)
      ("a", States.SYNCHRONIZING,
        ⟨⟨"d", ⟨2022, 3, 4, 5, 6, 7⟩, [("a", States.SYNCHRONIZING)]⟩,
          Backup.save_state ⟨"d", ⟨2022, 3, 4, 5, 6, 7⟩,
            [("a", States.SYNCHRONIZING)]⟩⟩)
      (by decide)⟩

/-- C1: `create` processes the sets in insertion order; for each set it
asks the resolver with exactly the state list
`[CLONED, SYNCHRONIZING, FINISHED]`; a set with a resolved source
passes through CLONING, CLONED, SYNCHRONIZING, FINISHED and a set
without one through SYNCHRONIZING, FINISHED only, each transition
followed by a persist of the full state; and a run over sets "a" and
"b" with no prior generation ends with every set FINISHED and the
persisted mapping `{"a": "FINISHED", "b": "FINISHED"}`. -/
theorem C1_create_state_machine :
    (∀ (b : Backup) (resolver : String → List States → Option String)
        (cloneOk syncOk : String → Bool),
      (∀ nm, cloneOk nm = true) → (∀ nm, syncOk nm = true) →
      (Backup.create b resolver cloneOk syncOk).queries =
        b.sets.map (fun p =>
          (p.1, [States.CLONED, States.SYNCHRONIZING, States.FINISHED])) ∧
      (Backup.create b resolver cloneOk syncOk).trace.map
          (fun e => (e.1, e.2.1)) =
        b.sets.flatMap (createSegment resolver) ∧
      (∀ e ∈ (Backup.create b resolver cloneOk syncOk).trace,
        e.2.2.file = e.2.2.backup.save_state) ∧
      (Backup.create b resolver cloneOk syncOk).result =
        .ok (b.sets.map (fun p => (p.1, States.FINISHED)))) ∧
    (∀ (dir : String) (ts : DateTime),
      (Backup.create
          ⟨dir, ts, [("a", States.CONFIGURED), ("b", States.CONFIGURED)]⟩
          (fun _ _ => none) (fun _ => true) (fun _ => true)).trace.map
          (fun e => (e.1, e.2.1)) =
        [("a", States.SYNCHRONIZING), ("a", States.FINISHED),
          ("b", States.SYNCHRONIZING), ("b", States.FINISHED)] ∧
      (Backup.create
          ⟨dir, ts, [("a", States.CONFIGURED), ("b", States.CONFIGURED)]⟩
          (fun _ _ => none) (fun _ => true) (fun _ => true)).result =
        .ok [("a", States.FINISHED), ("b", States.FINISHED)] ∧
      ((Backup.create
          ⟨dir, ts, [("a", States.CONFIGURED), ("b", States.CONFIGURED)]⟩
          (fun _ _ => none) (fun _ => true)
          (fun _ => true)).trace.getLast?).map
          (fun e => e.2.2.file.sets) =
        some [("a", "FINISHED"), ("b", "FINISHED")]) := by
  constructor
  · intro b r co so hco hso
    obtain ⟨h1, h2, h3⟩ :=
      createAux_ok r co so b.directory b.timestamp hco hso b.sets []
    exact ⟨h1, h3,
      fun e he =>
        createAux_trace_inv r co so b.directory b.timestamp b.sets [] e he,
      by simpa using h2⟩
  · intro dir ts
    exact ⟨rfl, rfl, rfl⟩

/-- Witness for C1 at a concrete backup whose resolver finds a source:
the resolver is queried with the three usable states and the run
finishes the set. -/
theorem C1_create_state_machine_witness :
    (Backup.create ⟨"d", ⟨2020, 1, 1, 0, 0, 0⟩, [("a", States.CONFIGURED)]⟩
        (fun _ _ => some "prev/a") (fun _ => true) (fun _ => true)).queries =
      [("a", [States.CLONED, States.SYNCHRONIZING, States.FINISHED])] ∧
    (Backup.create ⟨"d", ⟨2020, 1, 1, 0, 0, 0⟩, [("a", States.CONFIGURED)]⟩
        (fun _ _ => some "prev/a") (fun _ => true) (fun _ => true)).result =
      .ok [("a", States.FINISHED)] :=
  ⟨(C1_create_state_machine.1
      ⟨"d", ⟨2020, 1, 1, 0, 0, 0⟩, [("a", States.CONFIGURED)]⟩
      (fun _ _ => some "prev/a") (fun _ => true) (fun _ => true)
      (fun _ => rfl) (fun _ => rfl)).1,
    (C1_create_state_machine.1
      ⟨"d", ⟨2020, 1, 1, 0, 0, 0⟩, [("a", States.CONFIGURED)]⟩
      (fun _ _ => some "prev/a") (fun _ => true) (fun _ => true)
      (fun _ => rfl) (fun _ => rfl)).2.2.2⟩

/-- C2: during `clone_tree`, each entry whose operation fails with an
OS-level error is recorded as a `(srcPath, dstPath, reason)` triple and
the walk continues; an aggregated error from a recursive call is
flattened into the current level's list; entry processing is
independent, so the results over a concatenation are the
concatenations of the results; the call raises an aggregated error
carrying the full list iff the list is non-empty; and when exactly one
file among N siblings is unreadable, the other N−1 entries and the
destination directory are still created and the aggregated list holds
exactly the one failing triple. -/
theorem C2_clone_tree_partial_failure :
    (∀ (fa fs : String → Option String) (src dst name why : String)
        (sub : Tree) (rest : List (String × Tree)),
      sub.isDir = false → fa (pathJoin src name) = some why →
      cloneEntries fa fs src dst ((name, sub) :: rest) =
        ((pathJoin src name, pathJoin dst name, why) ::
            (cloneEntries fa fs src dst rest).1,
          (cloneEntries fa fs src dst rest).2)) ∧
    (∀ (fa fs : String → Option String) (src dst name : String)
        (es : List (String × Tree))
        (errs : List (String × String × String)) (cr : List String)
        (rest : List (String × Tree)),
      clone_tree fa fs (pathJoin src name) (pathJoin dst name) (.dir es) =
        .backupError errs cr →
      cloneEntries fa fs src dst ((name, .dir es) :: rest) =
        (errs ++ (cloneEntries fa fs src dst rest).1,
          cr ++ (cloneEntries fa fs src dst rest).2)) ∧
    (∀ (fa fs : String → Option String) (src dst : String)
        (l1 l2 : List (String × Tree)),
      cloneEntries fa fs src dst (l1 ++ l2) =
        ((cloneEntries fa fs src dst l1).1 ++
            (cloneEntries fa fs src dst l2).1,
          (cloneEntries fa fs src dst l1).2 ++
            (cloneEntries fa fs src dst l2).2)) ∧
    (∀ (fa fs : String → Option String) (src dst : String)
        (entries : List (String × Tree)),
      fa src = none →
      (clone_tree fa fs src dst (.dir entries) =
          .ok (dst :: (cloneEntries fa fs src dst entries).2) ↔
        (cloneEntries fa fs src dst entries).1 ++
          statErrors fs src dst = []) ∧
      ((cloneEntries fa fs src dst entries).1 ++
          statErrors fs src dst ≠ [] →
        clone_tree fa fs src dst (.dir entries) =
          .backupError
            ((cloneEntries fa fs src dst entries).1 ++
              statErrors fs src dst)
            (dst :: (cloneEntries fa fs src dst entries).2))) ∧
    (∀ (fa fs : String → Option String) (src dst bad reason : String)
        (entries : List (String × Tree)),
      (∀ p ∈ entries, p.2.isDir = false) →
      (∀ p ∈ entries, p.1 ≠ bad → fa (pathJoin src p.1) = none) →
      fa (pathJoin src bad) = some reason →
      bad ∈ entries.map Prod.fst → (entries.map Prod.fst).Nodup →
      fa src = none → fs src = none →
      clone_tree fa fs src dst (.dir entries) =
        .backupError [(pathJoin src bad, pathJoin dst bad, reason)]
          (dst :: (entries.filter (fun p => decide (p.1 ≠ bad))).map
            (fun p => pathJoin dst p.1))) := by
  have hform : ∀ (fa fs : String → Option String) (src dst : String)
      (entries : List (String × Tree)), fa src = none →
      clone_tree fa fs src dst (.dir entries) =
        (if ((cloneEntries fa fs src dst entries).1 ++
            statErrors fs src dst).isEmpty then
          CloneResult.ok (dst :: (cloneEntries fa fs src dst entries).2)
        else
          CloneResult.backupError
            ((cloneEntries fa fs src dst entries).1 ++
              statErrors fs src dst)
            (dst :: (cloneEntries fa fs src dst entries).2)) := by
    intro fa fs src dst entries hsrc
    cases hstat : fs src with
    | none => simp [clone_tree, hsrc, statErrors, hstat]
    | some why => simp [clone_tree, hsrc, statErrors, hstat]
  refine ⟨?_, ?_, cloneEntries_append, ?_, ?_⟩
  · intro fa fs src dst name why sub rest hnd hfail
    cases sub with
    | dir es => simp [Tree.isDir] at hnd
    | file => simp [cloneEntries, hfail]
    | symlink t => simp [cloneEntries, hfail]
  · intro fa fs src dst name es errs cr rest h
    simp [cloneEntries, h]
  · intro fa fs src dst entries hsrc
    rw [hform fa fs src dst entries hsrc]
    by_cases hE : (cloneEntries fa fs src dst entries).1 ++
        statErrors fs src dst = []
    · constructor
      · rw [hE]
        simp
      · intro h
        exact absurd hE h
    · have hb : ((cloneEntries fa fs src dst entries).1 ++
          statErrors fs src dst).isEmpty = false := by
        rw [Bool.eq_false_iff]
        intro h
        exact hE (List.isEmpty_iff.mp h)
      rw [if_neg (by simp [hb])]
      constructor
      · simp [hE]
      · intro _
        rfl
  · intro fa fs src dst bad reason entries hf hok hbad hmem hnd hsrc hstat
    have hec := cloneEntries_single_failure fa fs src dst bad reason
      entries hf hok hbad hmem hnd
    rw [hform fa fs src dst entries hsrc, hec]
    simp [statErrors, hstat]

/-- Witness for C2: three sibling files with the middle one
unreadable; the destination directory and the other two entries are
created and the aggregated error holds exactly the failing triple. -/
theorem C2_clone_tree_partial_failure_witness :
    clone_tree
        (fun p => if p = pathJoin "s" "f2" then some "Permission denied"
          else none)
        (fun _ => none) "s" "d"
        (.dir [("f1", Tree.file), ("f2", Tree.file), ("f3", Tree.file)]) =
      .backupError
        [(pathJoin "s" "f2", pathJoin "d" "f2", "Permission denied")]
        ("d" :: [pathJoin "d" "f1", pathJoin "d" "f3"]) := by
  have h := C2_clone_tree_partial_failure.2.2.2.2
    (fun p => if p = pathJoin "s" "f2" then some "Permission denied"
      else none)
    (fun _ => none) "s" "d" "f2" "Permission denied"
    [("f1", Tree.file), ("f2", Tree.file), ("f3", Tree.file)]
    (by decide) (by decide) (by decide) (by decide) (by decide)
    (by decide) rfl
  rw [h]
  rfl

end Backupbrace
